import Mathlib

/-!
Verification development for the email MCP server's mail access engine
(`email_client.py`).  The Python operations are shallowly embedded as
executable Lean definitions: pure helpers (`_parse_email`'s preview line,
`_decode_header`, body extraction) become Lean functions over `String` /
`List Char`; the IMAP store is modelled as a list of stored messages in
ascending arrival order whose sequence tokens are `1, 2, …`; fallible
operations return `Except`.
-/

namespace EmailMCP

/-- The whitespace characters stripped by Python's `str.strip()`,
restricted to the ASCII range that the repository's messages exercise. -/
def pyIsSpace (c : Char) : Bool :=
  c = ' ' || c = '\t' || c = '\n' || c = '\r' || c = '\x0b' || c = '\x0c'

/-- Python `s.replace('\n', ' ')` on a list of characters. -/
def pyReplaceNl (l : List Char) : List Char :=
  l.map fun c => if c = '\n' then ' ' else c

/-- Python `s.strip()`: drop leading and trailing whitespace. -/
def pyStripChars (l : List Char) : List Char :=
  ((l.dropWhile pyIsSpace).reverse.dropWhile pyIsSpace).reverse

/-- `email_client.py` line 73:
`preview = body[:150].replace('\n', ' ').strip() + "..." if len(body) > 150 else body`. -/
def previewOf (body : String) : String :=
  if 150 < body.length then
    String.mk (pyStripChars (pyReplaceNl (body.toList.take 150))) ++ "..."
  else body

/-- The spec's preview formula as written in the claim: first 150 characters
with newlines collapsed to spaces, then the ellipsis — with no strip step. -/
def specPreviewNoStrip (body : String) : String :=
  if 150 < body.length then
    String.mk (pyReplaceNl (body.toList.take 150)) ++ "..."
  else body

/-- Leading-whitespace removal, written by front recursion (used to phrase the
amended spec formula independently of `pyStripChars`). -/
def dropLeading : List Char → List Char
  | [] => []
  | c :: cs => if pyIsSpace c then dropLeading cs else c :: cs

/-- Trailing-whitespace removal, written as a right fold (used to phrase the
amended spec formula independently of `pyStripChars`). -/
def dropTrailing (l : List Char) : List Char :=
  l.foldr (fun c acc => if acc.isEmpty && pyIsSpace c then [] else c :: acc) []

/-- The amended spec formula for previews: truncate to 150 characters,
collapse newlines, strip leading and trailing whitespace, append the
ellipsis; short bodies pass through verbatim. -/
def specPreviewAmended (body : String) : String :=
  if 150 < body.length then
    String.mk (dropTrailing (dropLeading (pyReplaceNl (body.toList.take 150)))) ++ "..."
  else body

lemma dropLeading_eq_dropWhile (l : List Char) :
    dropLeading l = l.dropWhile pyIsSpace := by
  induction l with
  | nil => rfl
  | cons c cs ih =>
    simp only [dropLeading, List.dropWhile_cons]
    by_cases h : pyIsSpace c <;> simp [h, ih]

lemma dropTrailing_cons (c : Char) (cs : List Char) :
    dropTrailing (c :: cs) =
      if (dropTrailing cs).isEmpty && pyIsSpace c then [] else c :: dropTrailing cs := rfl

lemma dropTrailing_eq_reverse_dropWhile (l : List Char) :
    dropTrailing l = (l.reverse.dropWhile pyIsSpace).reverse := by
  induction l with
  | nil => rfl
  | cons c cs ih =>
    rw [dropTrailing_cons, ih]
    rcases h : cs.reverse.dropWhile pyIsSpace with _ | ⟨d, ds⟩
    · simp only [List.reverse_nil, List.isEmpty_nil, Bool.true_and, List.reverse_cons,
        List.dropWhile_append, h]
      by_cases hc : pyIsSpace c
      · simp [List.dropWhile, hc]
      · simp [List.dropWhile, hc]
    · have hne : ((d :: ds).reverse ++ [c]).isEmpty = false := by
        simp
      simp only [List.reverse_cons, List.dropWhile_append, h]
      simp [hne]

lemma pyStripChars_eq_spec (l : List Char) :
    pyStripChars l = dropTrailing (dropLeading l) := by
  rw [dropLeading_eq_dropWhile, dropTrailing_eq_reverse_dropWhile, pyStripChars]

/-- `true` iff the string is empty or starts with a non-whitespace character. -/
def headOkL : List Char → Bool
  | [] => true
  | c :: _ => !pyIsSpace c

/-- `true` iff the string is empty or starts with a non-whitespace character. -/
def headNotSpace (s : String) : Bool := headOkL s.toList

/-- `true` iff the string is empty or ends with a non-whitespace character. -/
def lastNotSpace (s : String) : Bool :=
  match s.toList.getLast? with
  | none => true
  | some c => !pyIsSpace c

lemma headOkL_dropWhile (l : List Char) :
    headOkL (l.dropWhile pyIsSpace) = true := by
  induction l with
  | nil => rfl
  | cons c cs ih =>
    by_cases h : pyIsSpace c
    · simpa [List.dropWhile_cons, h] using ih
    · simp [List.dropWhile_cons, h, headOkL]

lemma headOkL_dropTrailing (l : List Char) (h : headOkL l = true) :
    headOkL (dropTrailing l) = true := by
  cases l with
  | nil => rfl
  | cons c cs =>
    rw [dropTrailing_cons]
    by_cases he : (dropTrailing cs).isEmpty && pyIsSpace c
    · simp [he, headOkL]
    · simpa [he, headOkL] using h

lemma headOkL_pyStripChars (l : List Char) :
    headOkL (pyStripChars l) = true := by
  rw [pyStripChars_eq_spec, dropLeading_eq_dropWhile]
  exact headOkL_dropTrailing _ (headOkL_dropWhile l)

lemma headOkL_append_dots (l : List Char) (h : headOkL l = true) :
    headOkL (l ++ ['.', '.', '.']) = true := by
  cases l with
  | nil => decide
  | cons c cs => simpa [headOkL] using h

/-- A body of length 161 whose 150th character is a space: here the code's
`strip()` visibly changes the truncated preview. -/
def stripCexBody : String :=
  String.mk (List.replicate 149 'a' ++ ' ' :: List.replicate 11 'b')

set_option maxRecDepth 8000 in
/-- C2 counterexample: the claim's preview formula omits the `strip()` step of
`email_client.py` line 73, and on a long body whose truncation boundary ends in
a space the two disagree. -/
theorem preview_no_strip_counterexample :
    150 < stripCexBody.length ∧ previewOf stripCexBody ≠ specPreviewNoStrip stripCexBody := by
  decide

/-- C2 (amended): `preview` is a pure function of `body`; bodies of length
≤ 150 pass through unchanged, longer bodies are truncated to 150 characters,
newlines collapsed to spaces, leading and trailing whitespace stripped, and
the three-character ellipsis appended. -/
theorem preview_eq_amended_spec (body : String) :
    previewOf body = specPreviewAmended body := by
  unfold previewOf specPreviewAmended
  rw [pyStripChars_eq_spec]

/-- C10: for bodies longer than 150 characters the preview is
`strip(collapse-newlines(body[:150])) ++ "..."`, and such a truncated preview
never begins or ends with whitespace; bodies of length ≤ 150 are returned
verbatim, newlines included. -/
theorem preview_truncation_strips (body : String) :
    (body.length ≤ 150 → previewOf body = body) ∧
    (150 < body.length →
      previewOf body = String.mk (pyStripChars (pyReplaceNl (body.toList.take 150))) ++ "..." ∧
      headNotSpace (previewOf body) = true ∧
      lastNotSpace (previewOf body) = true) := by
  constructor
  · intro h
    have hn : ¬ 150 < body.length := not_lt.mpr h
    simp [previewOf, hn]
  · intro h
    have he : previewOf body =
        String.mk (pyStripChars (pyReplaceNl (body.toList.take 150))) ++ "..." := by
      simp [previewOf, h]
    refine ⟨he, ?_, ?_⟩
    · rw [headNotSpace, he]
      have hl : (String.mk (pyStripChars (pyReplaceNl (body.toList.take 150))) ++ "...").toList =
          pyStripChars (pyReplaceNl (body.toList.take 150)) ++ ['.', '.', '.'] := rfl
      rw [hl]
      exact headOkL_append_dots _ (headOkL_pyStripChars _)
    · rw [lastNotSpace, he]
      have hl : (String.mk (pyStripChars (pyReplaceNl (body.toList.take 150))) ++ "...").toList =
          (pyStripChars (pyReplaceNl (body.toList.take 150)) ++ ['.', '.']) ++ ['.'] := by
        show pyStripChars (pyReplaceNl (body.toList.take 150)) ++ ['.', '.', '.'] =
          (pyStripChars (pyReplaceNl (body.toList.take 150)) ++ ['.', '.']) ++ ['.']
        rw [List.append_assoc]
        rfl
      rw [hl, List.getLast?_concat]
      decide

/-- A 152-character body starting with a space, to exercise the truncated case
of `preview_truncation_strips`. -/
def longSpaceBody : String := String.mk (' ' :: List.replicate 151 'a')

set_option maxRecDepth 8000 in
/-- Witness for C10 at concrete inputs: a short body with a newline passes
through verbatim, and a long body yields a stripped preview with no leading
whitespace. -/
theorem preview_truncation_strips_witness :
    previewOf (String.mk ['a', '\n', 'b']) = String.mk ['a', '\n', 'b'] ∧
    headNotSpace (previewOf longSpaceBody) = true ∧
    lastNotSpace (previewOf longSpaceBody) = true := by
  refine ⟨(preview_truncation_strips (String.mk ['a', '\n', 'b'])).1 (by decide), ?_, ?_⟩
  · exact ((preview_truncation_strips longSpaceBody).2 (by decide)).2.1
  · exact ((preview_truncation_strips longSpaceBody).2 (by decide)).2.2

/-! ### The IMAP store model

A selected folder is a list of stored messages in ascending arrival order;
the store-assigned sequence tokens are `1, 2, …` in that order, which is what
`mail.search` returns. -/

/-- A message as held by the store: its `\Seen` status and the fields that
`_parse_email` extracts (headers already decoded, body already extracted). -/
structure StoredMsg where
  unseen : Bool
  fromHdr : String
  subject : String
  date : String
  body : String
deriving DecidableEq, Repr, Inhabited

/-- The dictionary built by `_parse_email` plus the `id` attached by the
callers (`parsed_email["id"] = num.decode()`). -/
structure EmailRec where
  subject : String
  sender : String
  date : String
  body : String
  preview : String
  id : String
deriving DecidableEq, Repr

/-- Fetch token `n` and parse it: `_parse_email` plus the `id` field. -/
def fetchRec (mb : List StoredMsg) (n : Nat) : EmailRec :=
  let m := mb.getD (n - 1) default
  { subject := m.subject, sender := m.fromHdr, date := m.date,
    body := m.body, preview := previewOf m.body, id := toString n }

/-- `mail.search(None, "ALL")` : all sequence tokens, ascending. -/
def searchAllTokens (mb : List StoredMsg) : List Nat :=
  (List.range mb.length).map (· + 1)

/-- Python `l[-count:]` for `count ≥ 0`; note `l[-0:]` is the whole list. -/
def pyTailSlice (l : List α) (count : Nat) : List α :=
  if count = 0 then l else l.drop (l.length - count)

/-- `email_client.py` line 103:
`message_list[-count:] if len(message_list) >= count else message_list`. -/
def recentMessages (l : List Nat) (count : Nat) : List Nat :=
  if count ≤ l.length then pyTailSlice l count else l

/-- `read_emails(count, folder)` on a connected, selected folder. -/
def readEmails (mb : List StoredMsg) (count : Nat) : List EmailRec :=
  ((recentMessages (searchAllTokens mb) count).reverse).map (fetchRec mb)

/-- One server-side search term of `filter_emails`. -/
inductive Criterion
  | unseen
  | seen
  | fromContains (s : String)
deriving DecidableEq, Repr

/-- `filter_emails` lines 147–151: the list of search terms, in the order the
code appends them (status first, then sender; an empty sender string is falsy
in Python and contributes nothing). -/
def criteriaOf (isUnread : Option Bool) (sender : Option String) : List Criterion :=
  (match isUnread with
   | some true => [Criterion.unseen]
   | some false => [Criterion.seen]
   | none => []) ++
  (match sender with
   | some s => if s = "" then [] else [Criterion.fromContains s]
   | none => [])

/-- The IMAP text of one search term. -/
def renderCriterion : Criterion → String
  | .unseen => "UNSEEN"
  | .seen => "SEEN"
  | .fromContains s => "FROM \"" ++ s ++ "\""

/-- `filter_emails` line 154:
`" ".join(search_criteria) if search_criteria else "ALL"`. -/
def searchString (isUnread : Option Bool) (sender : Option String) : String :=
  let cs := criteriaOf isUnread sender
  if cs.isEmpty then "ALL" else String.intercalate " " (cs.map renderCriterion)

/-- Contiguous-sublist (Python `needle in hay`) test on character lists. -/
def listHasSub (hay needle : List Char) : Bool :=
  hay.tails.any fun t => needle.isPrefixOf t

/-- Python `needle in hay` on strings. -/
def strHasSub (hay needle : String) : Bool :=
  listHasSub hay.toList needle.toList

/-- Store-side evaluation of one search term against a message (IMAP `FROM`
is a case-insensitive contains-match on the From header). -/
def matchesCriterion (m : StoredMsg) : Criterion → Bool
  | .unseen => m.unseen
  | .seen => !m.unseen
  | .fromContains s => strHasSub m.fromHdr.toLower s.toLower

/-- The store's search: tokens (ascending) of the messages matching every
term of the query. -/
def serverSearch (mb : List StoredMsg) (cs : List Criterion) : List Nat :=
  ((List.range mb.length).filter fun i => cs.all (matchesCriterion (mb.getD i default))).map
    (· + 1)

/-- `filter_emails` lines 166–168: keep a fetched record unless a truthy
subject criterion fails the case-insensitive substring test
(`subject and subject.lower() not in parsed_email["subject"].lower()`). -/
def subjectKeep (subject : Option String) (r : EmailRec) : Bool :=
  match subject with
  | none => true
  | some s => s = "" || strHasSub r.subject.toLower s.toLower

/-- `filter_emails(sender, subject, is_unread, folder)` on a connected,
selected folder: server-side search, per-token fetch and parse, client-side
subject filter, then `emails.reverse()`. -/
def filterEmails (mb : List StoredMsg) (sender subject : Option String)
    (isUnread : Option Bool) : List EmailRec :=
  (((serverSearch mb (criteriaOf isUnread sender)).map (fetchRec mb)).filter
    (subjectKeep subject)).reverse

/-- `get_unread_count` line 249: the raw search data is falsy (absent) or a
token list; `len(message_numbers[0].split()) if message_numbers[0] else 0`. -/
def unreadCountOfResp (resp : Option (List Nat)) : Nat :=
  match resp with
  | none => 0
  | some toks => toks.length

/-- `get_unread_count(folder)` on a connected, selected folder. -/
def getUnreadCount (mb : List StoredMsg) : Nat :=
  unreadCountOfResp (some (serverSearch mb [Criterion.unseen]))

/-- For a requested count of at least one, `read_emails` does return
`min(count, M)` records. -/
lemma readEmails_length (mb : List StoredMsg) (count : Nat) (h : 1 ≤ count) :
    (readEmails mb count).length = min count mb.length := by
  have hne : count ≠ 0 := by omega
  have hlen : (searchAllTokens mb).length = mb.length := by
    simp [searchAllTokens]
  unfold readEmails
  rw [List.length_map, List.length_reverse]
  by_cases hc : count ≤ mb.length
  · have hc' : count ≤ (searchAllTokens mb).length := by rw [hlen]; exact hc
    unfold recentMessages pyTailSlice
    rw [if_pos hc', if_neg hne, List.length_drop, hlen]
    omega
  · have hc' : ¬ count ≤ (searchAllTokens mb).length := by rw [hlen]; exact hc
    unfold recentMessages
    rw [if_neg hc', hlen]
    omega

/-- A concrete folder snapshot with three messages. -/
def mbThree : List StoredMsg :=
  [{ unseen := false, fromHdr := "alice@example.com", subject := "first", date := "d1",
     body := "one" },
   { unseen := true, fromHdr := "bob@example.com", subject := "second", date := "d2",
     body := "two" },
   { unseen := false, fromHdr := "carol@example.com", subject := "third", date := "d3",
     body := "three" }]

/-- C1: on a folder of three messages, `read_emails(count=0)` returns all
three records instead of the empty sequence the claim (and the function's own
docstring) demands: Python's `message_list[-0:]` is the whole list. -/
theorem read_emails_count_zero_bug :
    (readEmails mbThree 0).length = 3 ∧ (readEmails mbThree 0).length ≠ min 0 mbThree.length := by
  decide

/-- C3: the server-side query of `filter_emails` is composed of `UNSEEN` /
`SEEN` for the unread flag and `FROM "sender"` for a truthy sender, is `ALL`
when no criterion is set; the subject criterion is applied client-side as a
case-insensitive substring test on the decoded subject of each fetched
record; and the result order is the reverse of the store's ascending search
order. -/
theorem filter_emails_query_and_order :
    searchString (some true) none = "UNSEEN" ∧
    searchString (some false) none = "SEEN" ∧
    (∀ s : String, searchString none (some s) =
      if s = "" then "ALL" else "FROM \"" ++ s ++ "\"") ∧
    searchString none none = "ALL" ∧
    (∀ s : String, searchString (some true) (some s) =
      if s = "" then "UNSEEN" else "UNSEEN FROM \"" ++ s ++ "\"") ∧
    (∀ (mb : List StoredMsg) (sender : Option String) (subj : String)
      (isUnread : Option Bool),
      (filterEmails mb sender (some subj) isUnread).all (subjectKeep (some subj)) = true) ∧
    (∀ (mb : List StoredMsg) (sender subject : Option String) (isUnread : Option Bool),
      ∃ ks : List Nat,
        ks = (serverSearch mb (criteriaOf isUnread sender)).filter
          (fun n => subjectKeep subject (fetchRec mb n)) ∧
        ks.Pairwise (· < ·) ∧
        (filterEmails mb sender subject isUnread).map (fun r => r.id) =
          (ks.map fun n => toString n).reverse) := by
  refine ⟨rfl, rfl, ?_, rfl, ?_, ?_, ?_⟩
  · intro s
    by_cases hs : s = "" <;>
      simp [hs, searchString, criteriaOf, renderCriterion, String.intercalate,
        String.intercalate.go]
  · intro s
    by_cases hs : s = ""
    · simp [hs, searchString, criteriaOf, renderCriterion, String.intercalate,
        String.intercalate.go]
    · apply String.ext
      simp [hs, searchString, criteriaOf, renderCriterion, String.intercalate,
        String.intercalate.go, String.data_append]
  · intro mb sender subj isUnread
    refine List.all_eq_true.mpr fun r hr => ?_
    have hr' : r ∈ ((serverSearch mb (criteriaOf isUnread sender)).map (fetchRec mb)).filter
        (subjectKeep (some subj)) := List.mem_reverse.mp hr
    exact List.of_mem_filter hr'
  · intro mb sender subject isUnread
    refine ⟨(serverSearch mb (criteriaOf isUnread sender)).filter
      (fun n => subjectKeep subject (fetchRec mb n)), rfl, ?_, ?_⟩
    · exact (List.Pairwise.map _ (fun a b hab => by omega)
        ((List.pairwise_lt_range mb.length).filter _)).filter _
    · unfold filterEmails
      rw [List.map_reverse, List.filter_map, List.map_map]
      rfl

/-- C5: over one folder snapshot `get_unread_count` equals the length of
`filter_emails(is_unread=true)` with no other criteria, and the raw-response
count maps an absent response and an empty token list both to 0. -/
theorem unread_count_eq_filter_length (mb : List StoredMsg) :
    getUnreadCount mb = (filterEmails mb none none (some true)).length ∧
    unreadCountOfResp none = 0 ∧
    unreadCountOfResp (some []) = 0 := by
  refine ⟨?_, rfl, rfl⟩
  have hfilter : ∀ l : List EmailRec, l.filter (subjectKeep none) = l := fun l =>
    List.filter_eq_self.mpr fun a _ => rfl
  unfold filterEmails
  rw [List.length_reverse, hfilter, List.length_map]
  rfl

/-! ### MIME body extraction (`_parse_email` lines 55–70) -/

mutual
/-- A node of a message's MIME part tree: a leaf part with a content type and
a payload (already decoded with `errors='ignore'`, which is total on bytes),
or a multipart container. -/
inductive MimePart
  | leaf (contentType : String) (payload : String)
  | multi (contentType : String) (parts : PartList)
/-- A list of sibling MIME parts. -/
inductive PartList
  | nil
  | cons (head : MimePart) (tail : PartList)
end

mutual
/-- `Message.walk()`: the part itself, then its subparts depth-first. -/
def walkParts : MimePart → List MimePart
  | .leaf ct p => [.leaf ct p]
  | .multi ct ps => .multi ct ps :: walkPartList ps
/-- `walk()` concatenated over a list of sibling parts. -/
def walkPartList : PartList → List MimePart
  | .nil => []
  | .cons p ps => walkParts p ++ walkPartList ps
end

/-- Whether a walked part passes `part.get_content_type() == "text/plain"`
with a decodable payload (a container never does). -/
def isPlainLeaf : MimePart → Bool
  | .leaf ct _ => ct == "text/plain"
  | .multi _ _ => false

/-- The loop of lines 58–65 over the walk order: the payload of the first
part whose content type is exactly `text/plain`; later parts are skipped. -/
def firstPlainText : List MimePart → Option String
  | [] => none
  | MimePart.leaf ct p :: rest => if ct == "text/plain" then some p else firstPlainText rest
  | MimePart.multi _ _ :: rest => firstPlainText rest

/-- A fetched message as `email.message_from_bytes` presents it: either not
multipart — a single payload whose binary decoding may fail (`decoded`),
with `str(get_payload())` as the fallback (`raw`) — or multipart with a part
tree.  (`walk()` yields the root first; its `multipart/*` content type never
passes the `text/plain` test, so only the parts matter.) -/
inductive PyMsg
  | single (decoded : Option String) (raw : String)
  | multi (parts : PartList)

/-- Lines 56–70 of `email_client.py`: the extracted `body`. -/
def extractBody : PyMsg → String
  | .single (some s) _ => s
  | .single none raw => raw
  | .multi parts => (firstPlainText (walkPartList parts)).getD ""

lemma firstPlainText_append (pre l : List MimePart)
    (h : pre.all (fun q => !isPlainLeaf q) = true) :
    firstPlainText (pre ++ l) = firstPlainText l := by
  induction pre with
  | nil => rfl
  | cons q qs ih =>
    rw [List.all_cons, Bool.and_eq_true] at h
    cases q with
    | leaf ct p =>
      have hct : (ct == "text/plain") = false := by
        simpa [isPlainLeaf] using h.1
      rw [List.cons_append]
      rw [show firstPlainText (MimePart.leaf ct p :: (qs ++ l)) =
        if ct == "text/plain" then some p else firstPlainText (qs ++ l) from rfl]
      rw [hct]
      simpa using ih h.2
    | multi ct ps =>
      rw [List.cons_append]
      exact ih h.2

lemma firstPlainText_eq_none (l : List MimePart)
    (h : l.all (fun q => !isPlainLeaf q) = true) :
    firstPlainText l = none := by
  have := firstPlainText_append l [] h
  simpa using this

/-- C4: for a multipart message, a depth-first walk takes the payload of the
first `text/plain` part and ignores everything after it; with no `text/plain`
part anywhere both `body` and `preview` are empty; for a non-multipart
message the decoded payload is used, falling back to the payload's raw string
form when binary decoding fails. -/
theorem body_extraction_first_plain :
    (∀ (parts : PartList) (pre post : List MimePart) (p : String),
      walkPartList parts = pre ++ MimePart.leaf "text/plain" p :: post →
      pre.all (fun q => !isPlainLeaf q) = true →
      extractBody (PyMsg.multi parts) = p) ∧
    (∀ parts : PartList,
      (walkPartList parts).all (fun q => !isPlainLeaf q) = true →
      extractBody (PyMsg.multi parts) = "" ∧
      previewOf (extractBody (PyMsg.multi parts)) = "") ∧
    (∀ s raw : String, extractBody (PyMsg.single (some s) raw) = s) ∧
    (∀ raw : String, extractBody (PyMsg.single none raw) = raw) := by
  refine ⟨?_, ?_, fun s raw => rfl, fun raw => rfl⟩
  · intro parts pre post p hwalk hpre
    show (firstPlainText (walkPartList parts)).getD "" = p
    rw [hwalk, firstPlainText_append pre _ hpre]
    simp [firstPlainText]
  · intro parts hall
    have hb : extractBody (PyMsg.multi parts) = "" := by
      show (firstPlainText (walkPartList parts)).getD "" = ""
      rw [firstPlainText_eq_none _ hall]
      rfl
    exact ⟨hb, by rw [hb]; rfl⟩

/-- A multipart message whose first `text/plain` part sits inside a nested
`multipart/alternative` container, after an HTML part, and is followed by a
second `text/plain` part. -/
def nestedParts : PartList :=
  .cons (.leaf "text/html" "<b>hi</b>")
    (.cons (.multi "multipart/alternative"
      (.cons (.leaf "text/plain" "hello body")
        (.cons (.leaf "text/plain" "later part") .nil))) .nil)

/-- An HTML-only multipart message: no `text/plain` part anywhere. -/
def htmlOnlyParts : PartList :=
  .cons (.leaf "text/html" "<p>only html</p>") .nil

/-- Witness for C4 at concrete messages: the nested first `text/plain` part
wins, and an HTML-only multipart yields empty body and preview. -/
theorem body_extraction_first_plain_witness :
    extractBody (PyMsg.multi nestedParts) = "hello body" ∧
    extractBody (PyMsg.multi htmlOnlyParts) = "" ∧
    previewOf (extractBody (PyMsg.multi htmlOnlyParts)) = "" := by
  refine ⟨?_, ?_, ?_⟩
  · exact body_extraction_first_plain.1 nestedParts
      [MimePart.leaf "text/html" "<b>hi</b>",
       MimePart.multi "multipart/alternative"
         (.cons (.leaf "text/plain" "hello body")
           (.cons (.leaf "text/plain" "later part") .nil))]
      [MimePart.leaf "text/plain" "later part"] "hello body" rfl rfl
  · exact (body_extraction_first_plain.2.1 htmlOnlyParts rfl).1
  · exact (body_extraction_first_plain.2.1 htmlOnlyParts rfl).2

/-! ### Header decoding (`_decode_header`, lines 38–47) -/

/-- One element of `email.header.decode_header`'s output list: a plain text
segment (a pure-ASCII header arrives as a single such segment), or the raw
bytes of one encoded word with its declared charset. -/
inductive HeaderSeg
  | txt (s : String)
  | enc (content : List Nat) (charset : Option String)

/-- Line 44's `encoding or 'utf-8'`: a falsy charset falls back to UTF-8. -/
def charsetOrUtf8 : Option String → String
  | none => "utf-8"
  | some s => if s = "" then "utf-8" else s

/-- Decode one segment, where `dec cs b` stands for
`b.decode(cs, errors='ignore')` — total, discarding undecodable bytes. -/
def decodeSeg (dec : String → List Nat → String) : HeaderSeg → String
  | .txt s => s
  | .enc b c => dec (charsetOrUtf8 c) b

/-- `_decode_header`: start from `""` and `+=` each decoded segment. -/
def decodeHeaderPy (dec : String → List Nat → String) (segs : List HeaderSeg) : String :=
  segs.foldl (fun acc seg => acc ++ decodeSeg dec seg) ""

/-- C6: `_decode_header` concatenates, in order, each segment decoded with
its declared encoding (falling back to UTF-8 for an absent or falsy charset,
with undecodable bytes discarded by the total decoder), so headers mixing
encodings become one plain string and a plain ASCII header is returned
unchanged. -/
theorem decode_header_concat (dec : String → List Nat → String) :
    (∀ segs : List HeaderSeg,
      decodeHeaderPy dec segs = String.join (segs.map (decodeSeg dec))) ∧
    (∀ h : String, decodeHeaderPy dec [HeaderSeg.txt h] = h) ∧
    (∀ b : List Nat, decodeSeg dec (HeaderSeg.enc b none) = dec "utf-8" b) ∧
    (∀ (b : List Nat) (s : String),
      decodeSeg dec (HeaderSeg.enc b (some s)) = dec (if s = "" then "utf-8" else s) b) ∧
    (∀ seg1 seg2 : HeaderSeg,
      decodeHeaderPy dec [seg1, seg2] = decodeSeg dec seg1 ++ decodeSeg dec seg2) := by
  refine ⟨?_, ?_, fun b => rfl, fun b s => rfl, ?_⟩
  · intro segs
    show segs.foldl (fun acc seg => acc ++ decodeSeg dec seg) "" =
      (segs.map (decodeSeg dec)).foldl (fun r s => r ++ s) ""
    rw [List.foldl_map]
  · intro h
    show "" ++ h = h
    apply String.ext
    simp [String.data_append]
  · intro seg1 seg2
    show "" ++ decodeSeg dec seg1 ++ decodeSeg dec seg2 = decodeSeg dec seg1 ++ decodeSeg dec seg2
    apply String.ext
    simp [String.data_append]

/-! ### Sending (`send_email`, lines 183–232) -/

/-- A `datetime.now()` value.  The `datetime` type bounds its fields
(year ≤ 9999, month/day/hour/minute/second two digits, microsecond six
digits), which the fixed-width rendering below relies on. -/
structure PyDateTime where
  year : Nat
  month : Nat
  day : Nat
  hour : Nat
  minute : Nat
  second : Nat
  microsecond : Nat
deriving DecidableEq, Repr

/-- The decimal digit character for `n mod 10`. -/
def digitChar (n : Nat) : Char := Char.ofNat (48 + n % 10)

/-- Two-digit zero-padded rendering (`%02d` for values below 100). -/
def pad2Chars (n : Nat) : List Char := [digitChar (n / 10), digitChar n]

/-- Four-digit zero-padded rendering (`%04d` for values below 10000). -/
def pad4Chars (n : Nat) : List Char :=
  [digitChar (n / 1000), digitChar (n / 100), digitChar (n / 10), digitChar n]

/-- Six-digit zero-padded rendering (`%06d` for values below 1000000). -/
def pad6Chars (n : Nat) : List Char :=
  [digitChar (n / 100000), digitChar (n / 10000), digitChar (n / 1000),
   digitChar (n / 100), digitChar (n / 10), digitChar n]

/-- `datetime.isoformat()`: `YYYY-MM-DDTHH:MM:SS[.ffffff]`, the fractional
part omitted when the microsecond field is zero. -/
def isoformat (d : PyDateTime) : String :=
  String.mk (pad4Chars d.year ++ '-' :: pad2Chars d.month ++ '-' :: pad2Chars d.day ++
    'T' :: pad2Chars d.hour ++ ':' :: pad2Chars d.minute ++ ':' :: pad2Chars d.second ++
    (if d.microsecond = 0 then [] else '.' :: pad6Chars d.microsecond))

/-- A well-formed ISO-8601 fractional-seconds suffix: a dot and six digits. -/
def fracOk : List Char → Bool
  | '.' :: ds => ds.length == 6 && ds.all Char.isDigit
  | _ => false

/-- Shape check for an ISO-8601 timestamp `YYYY-MM-DDTHH:MM:SS[.ffffff]`. -/
def isIso8601 (s : String) : Bool :=
  match s.toList with
  | y1 :: y2 :: y3 :: y4 :: s1 :: m1 :: m2 :: s2 :: d1 :: d2 :: t ::
      h1 :: h2 :: c1 :: n1 :: n2 :: c2 :: x1 :: x2 :: rest =>
      [y1, y2, y3, y4, m1, m2, d1, d2, h1, h2, n1, n2, x1, x2].all Char.isDigit &&
      s1 == '-' && s2 == '-' && t == 'T' && c1 == ':' && c2 == ':' &&
      (rest.isEmpty || fracOk rest)
  | _ => false

lemma digitChar_isDigit (n : Nat) : (digitChar n).isDigit = true := by
  unfold digitChar
  set r := n % 10 with hr
  have h : r < 10 := Nat.mod_lt n (by decide)
  interval_cases r <;> decide

/-- The relay round-trip of lines 215–223: the single attempt either delivers
the message or raises. -/
inductive RelayOutcome
  | accepted
  | rejected (reason : String)

/-- The success dictionary of lines 225–229. -/
structure SendResult where
  success : Bool
  message : String
  timestamp : String
deriving DecidableEq, Repr

/-- `send_email(to, subject, body, cc)` given the clock value and the outcome
of its one relay round-trip. -/
def sendEmail (rcpt subject body : String) (cc : Option String) (now : PyDateTime)
    (relay : RelayOutcome) : Except String SendResult :=
  match relay with
  | .accepted => .ok
      { success := true,
        message := "Email sent successfully to " ++ rcpt,
        timestamp := isoformat now }
  | .rejected r => .error ("Failed to send email: " ++ r)

/-- C7: an accepted relay round-trip produces the success record with the
human-readable confirmation and an ISO-8601 submission timestamp; any relay
rejection makes the whole call fail with the wrapped send error and no
success record, and no second round-trip exists to retry. -/
theorem send_email_success_or_error :
    (∀ (rcpt subject body : String) (cc : Option String) (now : PyDateTime),
      sendEmail rcpt subject body cc now RelayOutcome.accepted =
        Except.ok
          { success := true,
            message := "Email sent successfully to " ++ rcpt,
            timestamp := isoformat now }) ∧
    (∀ d : PyDateTime, isIso8601 (isoformat d) = true) ∧
    (∀ (rcpt subject body : String) (cc : Option String) (now : PyDateTime) (r : String),
      sendEmail rcpt subject body cc now (RelayOutcome.rejected r) =
        Except.error ("Failed to send email: " ++ r)) := by
  refine ⟨fun _ _ _ _ _ => rfl, ?_, fun _ _ _ _ _ _ => rfl⟩
  intro d
  by_cases hm : d.microsecond = 0 <;>
    simp [isoformat, isIso8601, hm, pad4Chars, pad2Chars, pad6Chars, fracOk,
      digitChar_isDigit]

/-! ### Operation-boundary error handling (lines 94–121, 142–181, 244–256) -/

/-- A failure raised at the store boundary while a read-side operation runs:
the store rejecting the credential at login, an unreachable host, a missing
folder, or any other protocol error. -/
inductive StoreFailure
  | authRejected
  | hostUnreachable
  | folderMissing (folder : String)
  | other (msg : String)
deriving DecidableEq, Repr

/-- The error-taxonomy kind for each boundary failure. -/
def failureKind : StoreFailure → String
  | .authRejected => "AuthenticationError"
  | .hostUnreachable => "ConnectionError"
  | .folderMissing _ => "ConnectionError"
  | .other _ => "Error"

/-- `str(e)`: the text of the underlying cause. -/
def failureText : StoreFailure → String
  | .authRejected => "authentication rejected"
  | .hostUnreachable => "host unreachable"
  | .folderMissing f => "folder does not exist: " ++ f
  | .other m => m

/-- `read_emails` at its operation boundary: the `try` block over the
connection acquisition's outcome, with the `except` clause of line 120–121. -/
def readEmailsOp (conn : Except StoreFailure (List StoredMsg)) (count : Nat) :
    Except String (List EmailRec) :=
  match conn with
  | .ok mb => .ok (readEmails mb count)
  | .error e => .error ("Failed to read emails: " ++ failureText e)

/-- `filter_emails` at its operation boundary (lines 180–181). -/
def filterEmailsOp (conn : Except StoreFailure (List StoredMsg))
    (sender subject : Option String) (isUnread : Option Bool) :
    Except String (List EmailRec) :=
  match conn with
  | .ok mb => .ok (filterEmails mb sender subject isUnread)
  | .error e => .error ("Failed to filter emails: " ++ failureText e)

/-- `get_unread_count` at its operation boundary (lines 255–256). -/
def getUnreadCountOp (conn : Except StoreFailure (List StoredMsg)) :
    Except String Nat :=
  match conn with
  | .ok mb => .ok (getUnreadCount mb)
  | .error e => .error ("Failed to get unread count: " ++ failureText e)

/-- C8: a rejected credential is the `AuthenticationError` kind and an
unreachable host or missing folder the `ConnectionError` kind; every
boundary failure is re-raised by each read-side operation as one descriptive
error carrying the operation name and the underlying cause, and a failing
call never returns a (partial) result. -/
theorem read_ops_fail_atomically :
    failureKind StoreFailure.authRejected = "AuthenticationError" ∧
    failureKind StoreFailure.hostUnreachable = "ConnectionError" ∧
    (∀ f : String, failureKind (StoreFailure.folderMissing f) = "ConnectionError") ∧
    (∀ (e : StoreFailure) (count : Nat),
      readEmailsOp (.error e) count = .error ("Failed to read emails: " ++ failureText e) ∧
      ∀ recs : List EmailRec, readEmailsOp (.error e) count ≠ .ok recs) ∧
    (∀ (e : StoreFailure) (sender subject : Option String) (isUnread : Option Bool),
      filterEmailsOp (.error e) sender subject isUnread =
        .error ("Failed to filter emails: " ++ failureText e) ∧
      ∀ recs : List EmailRec,
        filterEmailsOp (.error e) sender subject isUnread ≠ .ok recs) ∧
    (∀ e : StoreFailure,
      getUnreadCountOp (.error e) =
        .error ("Failed to get unread count: " ++ failureText e) ∧
      ∀ n : Nat, getUnreadCountOp (.error e) ≠ .ok n) := by
  refine ⟨rfl, rfl, fun f => rfl, ?_, ?_, ?_⟩
  · exact fun e count => ⟨rfl, fun recs h => by simp [readEmailsOp] at h⟩
  · exact fun e sender subject isUnread => ⟨rfl, fun recs h => by simp [filterEmailsOp] at h⟩
  · exact fun e => ⟨rfl, fun n h => by simp [getUnreadCountOp] at h⟩

/-! ### Connection lifecycle (C9)

The read-side operations are straight-line `try` blocks: a protocol command
that raises aborts the block — nothing after it runs, including the
`mail.close()` / `mail.logout()` statements near the end — and the `except`
clause only re-raises.  The blocks are modelled as command scripts with an
optional injected failure position. -/

/-- One protocol command issued by a read-side operation. -/
inductive Cmd
  | connectTls
  | selectFolder (folder : String)
  | searchTerms (q : String)
  | fetchTok (tok : Nat)
  | closeBox
  | logoutBox
deriving DecidableEq, Repr

/-- The command sequence of `read_emails`'s `try` block (lines 94–118). -/
def readEmailsScript (mb : List StoredMsg) (count : Nat) (folder : String) : List Cmd :=
  [Cmd.connectTls, Cmd.selectFolder folder, Cmd.searchTerms "ALL"] ++
    ((recentMessages (searchAllTokens mb) count).reverse).map Cmd.fetchTok ++
    [Cmd.closeBox, Cmd.logoutBox]

/-- The command sequence of `filter_emails`'s `try` block (lines 142–178). -/
def filterScript (mb : List StoredMsg) (sender : Option String) (isUnread : Option Bool)
    (folder : String) : List Cmd :=
  [Cmd.connectTls, Cmd.selectFolder folder, Cmd.searchTerms (searchString isUnread sender)] ++
    (serverSearch mb (criteriaOf isUnread sender)).map Cmd.fetchTok ++
    [Cmd.closeBox, Cmd.logoutBox]

/-- The command sequence of `get_unread_count`'s `try` block (lines 244–253). -/
def unreadScript (folder : String) : List Cmd :=
  [Cmd.connectTls, Cmd.selectFolder folder, Cmd.searchTerms "UNSEEN",
   Cmd.closeBox, Cmd.logoutBox]

/-- Run a `try` block, optionally failing at the 0-based command position
`k`: commands up to and including `k` are issued, the rest never run, and
the call raises (`false`); with no failure every command runs (`true`). -/
def runScript (script : List Cmd) (failAt : Option Nat) : List Cmd × Bool :=
  match failAt with
  | none => (script, true)
  | some k => if k < script.length then (script.take (k + 1), false) else (script, true)

/-- C9 counterexample: on a three-message folder, a store failure at the
first fetch of `read_emails` makes the call raise with neither `close` nor
`logout` ever issued — the connection is not closed on this exit path. -/
theorem connection_not_closed_on_failure_cex :
    (runScript (readEmailsScript mbThree 2 "INBOX") (some 3)).2 = false ∧
    Cmd.closeBox ∉ (runScript (readEmailsScript mbThree 2 "INBOX") (some 3)).1 ∧
    Cmd.logoutBox ∉ (runScript (readEmailsScript mbThree 2 "INBOX") (some 3)).1 := by
  decide

/-- C9 (amended): on the successful exit path every read-side operation does
explicitly close and log out its connection; on a failing exit path the
wrapped exception propagates without the close/logout commands running. -/
theorem connection_closed_on_success (mb : List StoredMsg) (count : Nat)
    (folder : String) (sender : Option String) (isUnread : Option Bool) :
    ((runScript (readEmailsScript mb count folder) none).2 = true ∧
      Cmd.closeBox ∈ (runScript (readEmailsScript mb count folder) none).1 ∧
      Cmd.logoutBox ∈ (runScript (readEmailsScript mb count folder) none).1) ∧
    ((runScript (filterScript mb sender isUnread folder) none).2 = true ∧
      Cmd.closeBox ∈ (runScript (filterScript mb sender isUnread folder) none).1 ∧
      Cmd.logoutBox ∈ (runScript (filterScript mb sender isUnread folder) none).1) ∧
    ((runScript (unreadScript folder) none).2 = true ∧
      Cmd.closeBox ∈ (runScript (unreadScript folder) none).1 ∧
      Cmd.logoutBox ∈ (runScript (unreadScript folder) none).1) := by
  refine ⟨⟨rfl, ?_, ?_⟩, ⟨rfl, ?_, ?_⟩, ⟨rfl, ?_, ?_⟩⟩ <;>
    simp [runScript, readEmailsScript, filterScript, unreadScript]

end EmailMCP

